import Mathlib

/-!
Shallow embedding of the Availability Detection Engine of the classSOC
repository (src/models.py, src/config.py, src/detector.py, src/parser.py),
and proofs about it.

Python dictionaries with string keys and values are modelled as association
lists `List (String × String)`; a real Python `dict` has unique keys, so
theorems that need key uniqueness take a `Nodup` hypothesis on the key list.
Python `datetime.now(...)` is modelled by passing the current instant as an
explicit argument; BeautifulSoup element queries are modelled by structures
carrying exactly the fields the extractor reads.  Character-level operations
(`str.lower`, `str.strip`, the regex classes) are modelled at ASCII
precision, which covers every string the program's phrase tables and
section-label patterns deal with.
-/

namespace ClassSOC


/-- models.py `Status`: normalized section availability status. -/
inductive Status where
  | OPEN
  | CLOSED
  | WAITLISTED
  | CANCELLED
  | UNKNOWN
deriving DecidableEq

/-- models.py `Status.value` (the `str` payload of the enum member). -/
def Status.value : Status → String
  | .OPEN => "OPEN"
  | .CLOSED => "CLOSED"
  | .WAITLISTED => "WAITLISTED"
  | .CANCELLED => "CANCELLED"
  | .UNKNOWN => "UNKNOWN"

/-- Python `datetime` restricted to the fields `isoformat`/`fromisoformat`
exchange: date, time, microseconds, and an optional fixed UTC offset in
minutes (`none` models a naive datetime). -/
structure PyDateTime where
  year : Nat
  month : Nat
  day : Nat
  hour : Nat
  minute : Nat
  second : Nat
  microsecond : Nat
  utcOffsetMinutes : Option Int
deriving DecidableEq

/-- models.py `Snapshot`: timestamp, label → normalized-status map, optional
raw-text map and optional metadata map. -/
structure Snapshot where
  timestamp : PyDateTime
  sections : List (String × String)
  raw : Option (List (String × String)) := none
  meta : Option (List (String × String)) := none
deriving DecidableEq

/-- models.py `EventType`. -/
inductive EventType where
  | BECAME_AVAILABLE
  | BECAME_UNAVAILABLE
  | STATUS_CHANGED
deriving DecidableEq

/-- models.py `Event`. -/
structure Event where
  type : EventType
  timestamp : PyDateTime
  curr_snapshot : Snapshot
  prev_snapshot : Option Snapshot := none
  diff : List String := []
  url : Option String := none
deriving DecidableEq

/-- config.py `Config`, restricted to the fields the detection engine reads
(the Slack/CLI fields are never consulted by the core). -/
structure Config where
  url : String
  watched_sections : Option (List String) := none
  rule : String := "any_open"
deriving DecidableEq

/-- Python `dict.get(k)`: value of the (unique) binding of `k`, else `None`. -/
def dict_get (d : List (String × String)) (k : String) : Option String :=
  match d with
  | [] => none
  | (k₀, v₀) :: rest => if k₀ = k then some v₀ else dict_get rest k

/-- Python `d[k] = v`: replace the binding in place, else append. -/
def dict_set (d : List (String × String)) (k v : String) : List (String × String) :=
  match d with
  | [] => [(k, v)]
  | (k₀, v₀) :: rest => if k₀ = k then (k₀, v) :: rest else (k₀, v₀) :: dict_set rest k v

/-- Truthiness of an optional Python string (`None` and `""` are falsy). -/
def truthy : Option String → Bool
  | none => false
  | some s => !(s = "")

/-- Falsiness of an optional Python list (`None` and `[]` are falsy),
as tested by `if not config.watched_sections`. -/
def list_falsy : Option (List String) → Bool
  | none => true
  | some [] => true
  | some (_ :: _) => false

/-- Python `str.lower`, character by character (ASCII precision). -/
def py_lower (s : String) : String := ⟨s.data.map Char.toLower⟩

/-- Character-list version of "is a leading segment of". -/
def is_pref : List Char → List Char → Bool
  | [], _ => true
  | _ :: _, [] => false
  | a :: as, b :: bs => a = b && is_pref as bs

/-- Python `str.startswith`. -/
def py_startswith (s : String) (pre : String) : Bool := is_pref pre.data s.data

/-- The characters Python `\s` (and `str.strip`) treats as whitespace. -/
def is_py_space (c : Char) : Bool :=
  c = ' ' || c = '\t' || c = '\n' || c = '\r' || c = '\x0b' || c = '\x0c'

/-- Python `str.strip()`. -/
def py_strip (s : String) : String :=
  ⟨((s.data.dropWhile is_py_space).reverse.dropWhile is_py_space).reverse⟩

/-- detector.py `_is_available_any_open`:
`Status.OPEN.value in sections.values()`. -/
def is_available_any_open (sections : List (String × String)) (_config : Config) : Bool :=
  sections.any (fun kv => kv.2 = "OPEN")

/-- detector.py `_is_available_lecture_and_discussion`. -/
def is_available_lecture_and_discussion
    (sections : List (String × String)) (_config : Config) : Bool :=
  let has_lec_open := sections.any (fun kv =>
    py_startswith (py_lower kv.1) "lec" && kv.2 = "OPEN")
  let has_disc_open := sections.any (fun kv =>
    py_startswith (py_lower kv.1) "dis" && kv.2 = "OPEN")
  has_lec_open && has_disc_open

/-- detector.py `_is_available_specific_sections`:
`sections.get(s, "") == "OPEN"` for every watched label. -/
def is_available_specific_sections
    (sections : List (String × String)) (config : Config) : Bool :=
  if list_falsy config.watched_sections then
    is_available_any_open sections config
  else
    (config.watched_sections.getD []).all (fun s => (dict_get sections s).getD "" = "OPEN")

/-- detector.py `_get_rule_func`: `RULE_FUNCS.get(rule, _is_available_any_open)`,
where `RULE_FUNCS` binds the three `AvailabilityRule` name strings. -/
def get_rule_func (rule : String) :
    List (String × String) → Config → Bool :=
  if rule = "any_open" then is_available_any_open
  else if rule = "lecture_and_discussion" then is_available_lecture_and_discussion
  else if rule = "specific_sections" then is_available_specific_sections
  else is_available_any_open

/-- detector.py `_diff_labels`: labels (from the union of the two key sets)
whose value under `dict.get` differs between the snapshots. -/
def diff_labels (prev curr : Snapshot) : List String :=
  ((prev.sections.map Prod.fst) ++ (curr.sections.map Prod.fst)).dedup.filter
    (fun label => !(dict_get prev.sections label = dict_get curr.sections label))

/-- detector.py `detect`.  `now` stands for the `datetime.now(timezone.utc)`
calls that stamp the emitted event. -/
def detect (prev : Option Snapshot) (curr : Snapshot) (config : Config)
    (url : Option String) (now : PyDateTime) : List Event :=
  let rule_func := get_rule_func config.rule
  let curr_avail := rule_func curr.sections config
  match prev with
  | none => []
  | some p =>
    let prev_avail := rule_func p.sections config
    let diff := diff_labels p curr
    if curr_avail && !prev_avail then
      [{ type := .BECAME_AVAILABLE, timestamp := now, prev_snapshot := some p,
         curr_snapshot := curr, diff := diff, url := url }]
    else if !curr_avail && prev_avail then
      [{ type := .BECAME_UNAVAILABLE, timestamp := now, prev_snapshot := some p,
         curr_snapshot := curr, diff := diff, url := url }]
    else if !diff.isEmpty then
      [{ type := .STATUS_CHANGED, timestamp := now, prev_snapshot := some p,
         curr_snapshot := curr, diff := diff, url := url }]
    else []

/-- Concrete sample data used by the scenario conjuncts and witnesses. -/
def ts₀ : PyDateTime := ⟨2024, 1, 1, 0, 0, 0, 0, some 0⟩

def ts₁ : PyDateTime := ⟨2024, 1, 1, 0, 5, 0, 0, some 0⟩

def snap_lod : Snapshot := ⟨ts₀, [("Lec 1", "OPEN"), ("Dis 1A", "CLOSED")], none, none⟩

def snap_open : Snapshot := ⟨ts₁, [("Lec 1", "OPEN"), ("Dis 1A", "OPEN")], none, none⟩

def snap_closed : Snapshot := ⟨ts₀, [("Lec 1", "CLOSED"), ("Dis 1A", "CLOSED")], none, none⟩

def cfg_any : Config := ⟨"https://example.com", none, "any_open"⟩

def cfg_lecdis : Config := ⟨"https://example.com", none, "lecture_and_discussion"⟩

def ev_status : Event :=
  ⟨.STATUS_CHANGED, ts₁, snap_open, some snap_lod, diff_labels snap_lod snap_open, none⟩

/-- parser.py `STATUS_MAP`: raw lower-cased phrase → canonical status. -/
def STATUS_MAP : List (String × Status) :=
  [("open", .OPEN),
   ("closed", .CLOSED),
   ("full", .CLOSED),
   ("closed by dept", .CLOSED),
   ("waitlist", .WAITLISTED),
   ("waitlisted", .WAITLISTED),
   ("cancelled", .CANCELLED),
   ("canceled", .CANCELLED)]

/-- parser.py `STATUS_PHRASES` (priority-ordered for the substring search). -/
def STATUS_PHRASES : List String :=
  ["closed by dept", "waitlisted", "waitlist", "cancelled", "canceled",
   "open", "closed", "full"]

/-- Exact-match lookup in `STATUS_MAP` (Python `dict.get`). -/
def status_map_get (key : String) : Option Status :=
  STATUS_MAP.lookup key

/-- parser.py `_normalize`: `STATUS_MAP.get(raw_text.strip().lower(), Status.UNKNOWN)`. -/
def normalize (raw_text : String) : Status :=
  (status_map_get (py_lower (py_strip raw_text))).getD .UNKNOWN

/-- First index at which `needle` occurs in `hay` (Python `str.find`,
restricted to a non-negative result). -/
def str_find_idx (needle : List Char) : List Char → Option Nat
  | [] => if is_pref needle [] then some 0 else none
  | c :: t =>
    if is_pref needle (c :: t) then some 0
    else (str_find_idx needle t).map (· + 1)

/-- One attempt of the regex `\s*\([^)]*capacity[^)]*\).*` (with `re.I`) at the
head of `cs`: optional whitespace, an opening parenthesis, a parenthesis-free
span containing "capacity" case-insensitively, the closing parenthesis, then
everything up to the next newline.  Returns the remainder after the match. -/
def try_cap_match (cs : List Char) : Option (List Char) :=
  match cs.dropWhile is_py_space with
  | '(' :: after =>
    let inner := after.takeWhile (fun c => !(c = ')'))
    match after.dropWhile (fun c => !(c = ')')) with
    | _ :: tail =>
      if (str_find_idx "capacity".data (inner.map Char.toLower)).isSome then
        some (tail.dropWhile (fun c => !(c = '\n')))
      else none
    | [] => none
  | _ => none

/-- Fuel-indexed scan for `re.sub(r"\s*\([^)]*capacity[^)]*\).*", "", text)`:
try the pattern at each position, deleting every match.  A successful match
always consumes at least the two parentheses, so `fuel = cs.length` never
runs out before the scan ends. -/
def capacity_sub_aux : Nat → List Char → List Char
  | 0, _ => []
  | fuel + 1, cs =>
    match try_cap_match cs with
    | some rem => capacity_sub_aux fuel rem
    | none =>
      match cs with
      | [] => []
      | c :: t => c :: capacity_sub_aux fuel t

/-- The `re.sub` call of `_extract_status_from_text`. -/
def capacity_sub (cs : List Char) : List Char := capacity_sub_aux cs.length cs

/-- The phrase loop of `_extract_status_from_text`: first phrase (in priority
order) occurring in the lower-cased text wins, sliced from the original text
in its original casing. -/
def find_phrase : List String → List Char → List Char → String
  | [], _, _ => "UNKNOWN"
  | p :: ps, text, text_lower =>
    match str_find_idx p.data text_lower with
    | some idx => ⟨(text.drop idx).take p.data.length⟩
    | none => find_phrase ps text text_lower

/-- parser.py `_extract_status_from_text`. -/
def extract_status_from_text (text : String) : String :=
  let stripped := py_strip ⟨capacity_sub text.data⟩
  find_phrase STATUS_PHRASES stripped.data (stripped.data.map Char.toLower)

/-- The characters Python `\w` matches (ASCII precision). -/
def is_word_char (c : Char) : Bool := c.isAlphanum || c = '_'

/-- Python `str.isdigit` (ASCII precision; empty string is False). -/
def py_isdigit (s : String) : Bool := !s.data.isEmpty && s.data.all Char.isDigit

/-- parser.py section-label check `re.match(r"^(Lec|Dis|Lab|Sem)\s*\d", label, re.I)`:
one of the four prefixes, optional whitespace, then a digit, anchored at the
start of the label. -/
def section_label_match (label : String) : Bool :=
  let low := label.data.map Char.toLower
  ["lec", "dis", "lab", "sem"].any (fun alt =>
    is_pref alt.data low &&
    (match (low.drop alt.data.length).dropWhile is_py_space with
     | d :: _ => d.isDigit
     | [] => false))

/-- parser.py `_extract_legacy_row`, on the list of cell texts
(`get_text(strip=True)` of each `td`/`th`). -/
def extract_legacy_row (cells : List String) : Option String × Option String :=
  if cells.length < 2 then (none, none)
  else
    let label_candidate := cells.getD 0 ""
    let status_candidate := (cells.getLast?).getD ""
    let status_candidate :=
      if py_isdigit status_candidate && decide (3 ≤ cells.length) then
        cells.getD (cells.length - 2) ""
      else status_candidate
    if section_label_match label_candidate then
      (some label_candidate, some status_candidate)
    else (none, none)

/-- An `<a>` element inside the class-section div: its stripped text and its
`.string` attribute. -/
structure Anchor where
  get_text : String
  string_attr : Option String

/-- The `div.cls-section` element as the extractor queries it. -/
structure ClsSection where
  anchor : Option Anchor
  get_text : String
  decode_contents : String

/-- The `div.sectionColumn` element. -/
structure SectionCol where
  cls_section : Option ClsSection

/-- The `div.statusColumn` element: stripped text of its first `<p>` child
(`none` when no `<p>` exists) and its inner markup. -/
structure StatusCol where
  p_text : Option String
  decode_contents : String

/-- A candidate row as the two extractors query it: the UCLA SOC divs and the
legacy table cells. -/
structure SocRow where
  section_col : Option SectionCol
  status_col : Option StatusCol
  cells : List String

/-- One attempt of `re.search(r"(Lec|Dis|Lab|Sem)\s*\d\w*", text, re.I)` at the
head of `cs`; returns the length of the match. -/
def try_section_at (cs : List Char) : Option Nat :=
  let low := cs.map Char.toLower
  let hit :=
    if is_pref "lec".data low then some 3
    else if is_pref "dis".data low then some 3
    else if is_pref "lab".data low then some 3
    else if is_pref "sem".data low then some 3
    else none
  match hit with
  | none => none
  | some k =>
    let rest := cs.drop k
    let ws := (rest.takeWhile is_py_space).length
    match rest.drop ws with
    | d :: t =>
      if d.isDigit then some (k + ws + 1 + (t.takeWhile is_word_char).length)
      else none
    | [] => none

/-- Leftmost match of the section-label search, in original casing. -/
def re_search_section_aux : List Char → Option (List Char)
  | [] => none
  | c :: t =>
    match try_section_at (c :: t) with
    | some n => some ((c :: t).take n)
    | none => re_search_section_aux t

/-- parser.py `re.search(r"(Lec|Dis|Lab|Sem)\s*\d\w*", text, re.I)` with `.group(0)`. -/
def re_search_section (text : String) : Option String :=
  (re_search_section_aux text.data).map (fun cs => ⟨cs⟩)

/-- parser.py `_extract_status_from_html` alternation, in regex order. -/
def STATUS_HTML_ALTS : List String :=
  ["Open", "Closed by Dept", "Full", "Waitlisted", "Cancelled", "Canceled",
   "Waitlist", "Closed"]

/-- Case-insensitive match of `pat` at the head of `cs`. -/
def ci_match_at (pat : List Char) (cs : List Char) : Bool :=
  (cs.take pat.length).map Char.toLower = pat.map Char.toLower

/-- One attempt of `\b<pat>\b` (case-insensitive) at the head of `cs`, where
`prev` is the character just before `cs` in the scanned text. -/
def esh_try (prev : Option Char) (cs : List Char) (pat : String) : Bool :=
  (match prev with | none => true | some p => !is_word_char p) &&
  ci_match_at pat.data cs &&
  (match cs.drop pat.data.length with | [] => true | c :: _ => !is_word_char c)

/-- Leftmost, alternation-ordered match of the status-phrase regex. -/
def esh_aux (prev : Option Char) : List Char → Option (List Char)
  | [] => none
  | c :: t =>
    match STATUS_HTML_ALTS.find? (fun pat => esh_try prev (c :: t) pat) with
    | some pat => some ((c :: t).take pat.data.length)
    | none => esh_aux (some c) t

/-- parser.py `_extract_status_from_html`. -/
def extract_status_from_html (html : String) : String :=
  match esh_aux none html.data with
  | some cs => ⟨cs⟩
  | none => "UNKNOWN"

/-- Label resolution of `_extract_ucla_row`: anchor text, else the stripped
`.string` attribute, else the regex scan over the section div text (or, when
that text is empty, its inner markup). -/
def ucla_label (section_col : SectionCol) : Option String :=
  match section_col.cls_section with
  | some cls_section =>
    let label₀ : Option String :=
      match cls_section.anchor with
      | some a =>
        if !(a.get_text = "") then some a.get_text
        else
          match a.string_attr with
          | some str => if !(str = "") then some (py_strip str) else none
          | none => none
      | none => none
    if truthy label₀ then label₀
    else
      let text :=
        if !(cls_section.get_text = "") then cls_section.get_text
        else cls_section.decode_contents
      re_search_section text
  | none => none

/-- Status resolution of `_extract_ucla_row`: the literal "UNKNOWN" when the
status column has no `<p>`, the text-based phrase search on its text when
non-empty, and the raw-markup regex fallback when the text is empty. -/
def ucla_status (status_col : StatusCol) : String :=
  match status_col.p_text with
  | none => "UNKNOWN"
  | some text =>
    if text = "" then extract_status_from_html status_col.decode_contents
    else extract_status_from_text text

/-- parser.py `_extract_ucla_row`: reject rows lacking the two columns or a
pattern-matching label, else pair the resolved label with the resolved
status. -/
def extract_ucla_row (row : SocRow) : Option String × Option String :=
  match row.section_col, row.status_col with
  | some section_col, some status_col =>
    match ucla_label section_col with
    | some l =>
      if section_label_match l then (some l, some (ucla_status status_col))
      else (none, none)
    | none => (none, none)
  | _, _ => (none, none)

/-- The body of the row loop in parser.py `parse`: UCLA extraction first,
legacy fallback when it yields no truthy pair, insertion only for truthy
label and status. -/
def process_row (acc : List (String × String) × List (String × String))
    (row : SocRow) : List (String × String) × List (String × String) :=
  let lr := extract_ucla_row row
  let lr := if truthy lr.1 && truthy lr.2 then lr else extract_legacy_row row.cells
  if truthy lr.1 && truthy lr.2 then
    (dict_set acc.1 (lr.1.getD "") (normalize (lr.2.getD "")).value,
     dict_set acc.2 (lr.1.getD "") (lr.2.getD ""))
  else acc

/-- parser.py `parse`, from the candidate row list onward: builds the
`sections` and `raw` dictionaries. -/
def process_rows (rows : List SocRow) :
    List (String × String) × List (String × String) :=
  rows.foldl process_row ([], [])

/-- parser.py `parse`: the snapshot returned for a given candidate row list,
with `now` the capture instant. -/
def parse_rows (now : PyDateTime) (rows : List SocRow) : Snapshot :=
  { timestamp := now, sections := (process_rows rows).1,
    raw := if (process_rows rows).2.isEmpty then none else some (process_rows rows).2,
    meta := none }

def row_no_p : SocRow :=
  ⟨some ⟨some ⟨some ⟨"Lec 1", none⟩, "Lec 1", ""⟩⟩, some ⟨none, "<div></div>"⟩, []⟩

/-- Zero-padded decimal rendering of `n` on `w` digits (most significant
first), as Python `%04d`-style formatting inside `datetime.isoformat`. -/
def pad : Nat → Nat → List Char
  | 0, _ => []
  | w + 1, n => Nat.digitChar (n / 10 ^ w) :: pad w (n % 10 ^ w)

/-- The `.ffffff` microsecond part of `isoformat` (empty when zero). -/
def micro_chars (us : Nat) : List Char :=
  if us = 0 then [] else '.' :: pad 6 us

/-- The `±HH:MM` offset part of `isoformat` (empty for a naive datetime). -/
def offset_chars : Option Int → List Char
  | none => []
  | some off =>
    (if off < 0 then '-' else '+') ::
      (pad 2 (off.natAbs / 60) ++ [':'] ++ pad 2 (off.natAbs % 60))

/-- Python `datetime.isoformat()`: `YYYY-MM-DDTHH:MM:SS[.ffffff][±HH:MM]`. -/
def isoformat_chars (d : PyDateTime) : List Char :=
  pad 4 d.year ++ ['-'] ++ pad 2 d.month ++ ['-'] ++ pad 2 d.day ++ ['T'] ++
  pad 2 d.hour ++ [':'] ++ pad 2 d.minute ++ [':'] ++ pad 2 d.second ++
  micro_chars d.microsecond ++ offset_chars d.utcOffsetMinutes

/-- String form of `isoformat_chars` (what `Snapshot.to_dict` stores). -/
def isoformat (d : PyDateTime) : String := ⟨isoformat_chars d⟩

/-- Consume exactly `w` decimal digits, most significant first. -/
def parse_fixed : Nat → Nat → List Char → Option (Nat × List Char)
  | 0, acc, cs => some (acc, cs)
  | w + 1, acc, cs =>
    match cs with
    | c :: t => if c.isDigit then parse_fixed w (acc * 10 + (c.toNat - 48)) t else none
    | [] => none

/-- Consume one expected separator character. -/
def expect_char (c : Char) : List Char → Option (List Char)
  | [] => none
  | x :: t => if x = c then some t else none

/-- Parse `HH:MM` to a minute count, requiring the string to end there. -/
def parse_hm (cs : List Char) : Option Nat :=
  match parse_fixed 2 0 cs with
  | none => none
  | some (h, cs) =>
    match expect_char ':' cs with
    | none => none
    | some cs =>
      match parse_fixed 2 0 cs with
      | none => none
      | some (m, cs) => if cs = [] then some (h * 60 + m) else none

/-- Parse the optional `±HH:MM` trailing offset. -/
def parse_offset : List Char → Option (Option Int)
  | [] => some none
  | c :: t =>
    if c = '+' then (parse_hm t).map (fun m => some (Int.ofNat m))
    else if c = '-' then (parse_hm t).map (fun m => some (-(Int.ofNat m)))
    else none

/-- Parse the optional `.ffffff` microseconds then the optional offset. -/
def parse_micro_offset : List Char → Option (Nat × Option Int)
  | [] => (parse_offset []).map (fun off => ((0 : Nat), off))
  | c :: t =>
    if c = '.' then
      match parse_fixed 6 0 t with
      | none => none
      | some (us, rest) => (parse_offset rest).map (fun off => (us, off))
    else (parse_offset (c :: t)).map (fun off => ((0 : Nat), off))

/-- Python `datetime.fromisoformat` on the strings `isoformat` produces. -/
def fromisoformat (s : String) : Option PyDateTime :=
  (parse_fixed 4 0 s.data).bind fun yc =>
  (expect_char '-' yc.2).bind fun cs =>
  (parse_fixed 2 0 cs).bind fun moc =>
  (expect_char '-' moc.2).bind fun cs =>
  (parse_fixed 2 0 cs).bind fun dyc =>
  (expect_char 'T' dyc.2).bind fun cs =>
  (parse_fixed 2 0 cs).bind fun hc =>
  (expect_char ':' hc.2).bind fun cs =>
  (parse_fixed 2 0 cs).bind fun mic =>
  (expect_char ':' mic.2).bind fun cs =>
  (parse_fixed 2 0 cs).bind fun sec =>
  (parse_micro_offset sec.2).map fun uo =>
  ⟨yc.1, moc.1, dyc.1, hc.1, mic.1, sec.1, uo.1, uo.2⟩

/-- Field bounds under which a Python datetime round-trips (every real
`datetime` satisfies them: year ≤ 9999, offsets within ±24h). -/
def iso_valid (d : PyDateTime) : Bool :=
  decide (d.year < 10 ^ 4) && decide (d.month < 10 ^ 2) && decide (d.day < 10 ^ 2) &&
  decide (d.hour < 10 ^ 2) && decide (d.minute < 10 ^ 2) && decide (d.second < 10 ^ 2) &&
  decide (d.microsecond < 10 ^ 6) &&
  (match d.utcOffsetMinutes with
   | none => true
   | some off => decide (off.natAbs < 6000))

/-- Bound on a modelled UTC offset (Python offsets are within a day). -/
def off_bound : Option Int → Prop
  | none => True
  | some o => o.natAbs < 6000

/-- The serialized form of a Snapshot: `to_dict` emits the `raw`/`meta` keys
exactly when the fields are non-null, modelled by the `Option` being `some`. -/
structure SnapshotDict where
  timestamp : String
  sections : List (String × String)
  raw : Option (List (String × String))
  meta : Option (List (String × String))
deriving DecidableEq

/-- models.py `Snapshot.to_dict`. -/
def Snapshot.to_dict (s : Snapshot) : SnapshotDict :=
  ⟨isoformat s.timestamp, s.sections, s.raw, s.meta⟩

/-- models.py `Snapshot.from_dict` (`None` models the `ValueError` a
malformed timestamp raises). -/
def Snapshot.from_dict (d : SnapshotDict) : Option Snapshot :=
  (fromisoformat d.timestamp).map fun ts => ⟨ts, d.sections, d.raw, d.meta⟩

def snap_rt : Snapshot :=
  ⟨⟨2025, 12, 31, 23, 59, 58, 123456, some (-480)⟩,
   [("Lec 1", "OPEN"), ("Dis 1A", "WAITLISTED")],
   some [("Lec 1", "Open")], some [("term", "25W")]⟩

lemma dict_get_eq_none (d : List (String × String)) (k : String)
    (h : k ∉ d.map Prod.fst) : dict_get d k = none := by
  induction d with
  | nil => rfl
  | cons kv rest ih =>
    simp only [List.map_cons, List.mem_cons, not_or] at h
    simp only [dict_get, if_neg (Ne.symm h.1)]
    exact ih h.2

lemma dict_get_mem {d : List (String × String)} {k v : String}
    (h : dict_get d k = some v) : (k, v) ∈ d := by
  induction d with
  | nil => simp [dict_get] at h
  | cons kv rest ih =>
    by_cases hk : kv.1 = k
    · simp only [dict_get, if_pos hk] at h
      injection h with h2
      subst h2
      subst hk
      simp
    · simp only [dict_get, if_neg hk] at h
      exact List.mem_cons_of_mem _ (ih h)

lemma mem_keys_of_dict_get {d : List (String × String)} {k v : String}
    (h : dict_get d k = some v) : k ∈ d.map Prod.fst := by
  by_contra hc
  rw [dict_get_eq_none d k hc] at h
  cases h

lemma dict_get_of_mem_nodup {d : List (String × String)} {k v : String}
    (hn : (d.map Prod.fst).Nodup) (h : (k, v) ∈ d) : dict_get d k = some v := by
  induction d with
  | nil => cases h
  | cons kv rest ih =>
    simp only [List.map_cons, List.nodup_cons] at hn
    rcases List.mem_cons.mp h with h1 | h1
    · cases h1
      simp [dict_get]
    · have hk : kv.1 ≠ k := by
        intro he
        exact hn.1 (he ▸ (List.mem_map.mpr ⟨(k, v), h1, rfl⟩))
      simp only [dict_get, if_neg hk]
      exact ih hn.2 h1

lemma mem_diff_labels {p c : Snapshot} {l : String} :
    l ∈ diff_labels p c ↔ dict_get p.sections l ≠ dict_get c.sections l := by
  unfold diff_labels
  rw [List.mem_filter]
  constructor
  · rintro ⟨-, h⟩
    simpa using h
  · intro h
    refine ⟨?_, by simpa using h⟩
    rw [List.mem_dedup, List.mem_append]
    rcases hp : dict_get p.sections l with _ | v
    · rcases hc : dict_get c.sections l with _ | w
      · exact absurd (hp.trans hc.symm) h
      · exact Or.inr (mem_keys_of_dict_get hc)
    · exact Or.inl (mem_keys_of_dict_get hp)

lemma diff_labels_ne_nil {p c : Snapshot}
    (h : ∃ l, dict_get p.sections l ≠ dict_get c.sections l) :
    diff_labels p c ≠ [] := by
  rcases h with ⟨l, hl⟩
  intro he
  have hm := mem_diff_labels.mpr hl
  rw [he] at hm
  exact (List.not_mem_nil l) hm

lemma diff_labels_eq_nil {p c : Snapshot}
    (h : ∀ l, dict_get p.sections l = dict_get c.sections l) :
    diff_labels p c = [] := by
  rcases he : diff_labels p c with _ | ⟨l, rest⟩
  · rfl
  · exact absurd (h l) (mem_diff_labels.mp (he ▸ List.mem_cons_self l rest))

/-- Every event emitted by `detect` carries the computed label diff and the two
snapshots compared. -/
lemma detect_mem {p curr : Snapshot} {config : Config} {url : Option String}
    {now : PyDateTime} {e : Event} (he : e ∈ detect (some p) curr config url now) :
    e.diff = diff_labels p curr ∧ e.prev_snapshot = some p ∧ e.curr_snapshot = curr ∧
    e.url = url ∧ e.timestamp = now := by
  simp only [detect] at he
  split at he <;> [skip; split at he] <;> [skip; skip; split at he]
  all_goals simp_all

/-- C1: `detect` emits at most one event per call.  With no previous snapshot it
emits nothing; otherwise the classification follows the exact priority of the
source: an availability verdict flipping to true yields exactly one
BECAME_AVAILABLE event, a flip to false exactly one BECAME_UNAVAILABLE event,
an unchanged verdict with a non-empty label diff exactly one STATUS_CHANGED
event, and otherwise nothing — never both an availability transition and a
status-changed event for the same comparison. -/
theorem detect_priority (p curr : Snapshot) (config : Config)
    (url : Option String) (now : PyDateTime) :
    detect none curr config url now = [] ∧
    (detect (some p) curr config url now).length ≤ 1 ∧
    (get_rule_func config.rule curr.sections config = true →
      get_rule_func config.rule p.sections config = false →
      detect (some p) curr config url now =
        [{ type := .BECAME_AVAILABLE, timestamp := now, prev_snapshot := some p,
           curr_snapshot := curr, diff := diff_labels p curr, url := url }]) ∧
    (get_rule_func config.rule curr.sections config = false →
      get_rule_func config.rule p.sections config = true →
      detect (some p) curr config url now =
        [{ type := .BECAME_UNAVAILABLE, timestamp := now, prev_snapshot := some p,
           curr_snapshot := curr, diff := diff_labels p curr, url := url }]) ∧
    (get_rule_func config.rule curr.sections config = get_rule_func config.rule p.sections config →
      diff_labels p curr ≠ [] →
      detect (some p) curr config url now =
        [{ type := .STATUS_CHANGED, timestamp := now, prev_snapshot := some p,
           curr_snapshot := curr, diff := diff_labels p curr, url := url }]) ∧
    (get_rule_func config.rule curr.sections config = get_rule_func config.rule p.sections config →
      diff_labels p curr = [] →
      detect (some p) curr config url now = []) := by
  refine ⟨rfl, ?_, ?_, ?_, ?_, ?_⟩
  · cases hc : get_rule_func config.rule curr.sections config <;>
      cases hp : get_rule_func config.rule p.sections config <;>
        simp [detect, hc, hp] <;> split <;> simp
  · intro hc hp
    simp [detect, hc, hp]
  · intro hc hp
    simp [detect, hc, hp]
  · intro hcp hd
    cases hc : get_rule_func config.rule curr.sections config <;>
      rw [hc] at hcp <;>
        simp [detect, hc, ← hcp, List.isEmpty_iff, hd]
  · intro hcp hd
    cases hc : get_rule_func config.rule curr.sections config <;>
      rw [hc] at hcp <;>
        simp [detect, hc, ← hcp, List.isEmpty_iff, hd]

/-- Witness for C1 at concrete inputs. -/
theorem detect_priority_witness :
    detect (some snap_closed) snap_open cfg_any none ts₁ =
      [{ type := .BECAME_AVAILABLE, timestamp := ts₁, prev_snapshot := some snap_closed,
         curr_snapshot := snap_open, diff := diff_labels snap_closed snap_open, url := none }] ∧
    detect (some snap_open) snap_closed cfg_any none ts₁ =
      [{ type := .BECAME_UNAVAILABLE, timestamp := ts₁, prev_snapshot := some snap_open,
         curr_snapshot := snap_closed, diff := diff_labels snap_open snap_closed, url := none }] ∧
    detect (some snap_lod) snap_open cfg_any none ts₁ =
      [{ type := .STATUS_CHANGED, timestamp := ts₁, prev_snapshot := some snap_lod,
         curr_snapshot := snap_open, diff := diff_labels snap_lod snap_open, url := none }] ∧
    detect (some snap_open) snap_open cfg_any none ts₁ = [] := by
  refine ⟨?_, ?_, ?_, ?_⟩
  · exact (detect_priority snap_closed snap_open cfg_any none ts₁).2.2.1
      (by decide) (by decide)
  · exact (detect_priority snap_open snap_closed cfg_any none ts₁).2.2.2.1
      (by decide) (by decide)
  · exact (detect_priority snap_lod snap_open cfg_any none ts₁).2.2.2.2.1
      (by decide) (by decide)
  · exact (detect_priority snap_open snap_open cfg_any none ts₁).2.2.2.2.2
      (by decide) (by decide)

/-- C2: the diff attached to any emitted event is exactly the set of labels
present in either snapshot whose status differs between the two snapshots
(a label present in only one snapshot counts as differing); when the
availability verdict is unchanged, `detect` emits exactly one STATUS_CHANGED
event if the section maps differ and no event at all if they are identical. -/
theorem detect_diff (p curr : Snapshot) (config : Config)
    (url : Option String) (now : PyDateTime) :
    (∀ e ∈ detect (some p) curr config url now, ∀ l : String,
      l ∈ e.diff ↔ ((l ∈ p.sections.map Prod.fst ∨ l ∈ curr.sections.map Prod.fst) ∧
        dict_get p.sections l ≠ dict_get curr.sections l)) ∧
    (get_rule_func config.rule curr.sections config =
        get_rule_func config.rule p.sections config →
      (∃ l, dict_get p.sections l ≠ dict_get curr.sections l) →
      detect (some p) curr config url now =
        [{ type := .STATUS_CHANGED, timestamp := now, prev_snapshot := some p,
           curr_snapshot := curr, diff := diff_labels p curr, url := url }]) ∧
    (get_rule_func config.rule curr.sections config =
        get_rule_func config.rule p.sections config →
      (∀ l, dict_get p.sections l = dict_get curr.sections l) →
      detect (some p) curr config url now = []) := by
  refine ⟨?_, ?_, ?_⟩
  · intro e he l
    rw [(detect_mem he).1, mem_diff_labels]
    constructor
    · intro h
      refine ⟨?_, h⟩
      rcases hp : dict_get p.sections l with _ | v
      · rcases hc : dict_get curr.sections l with _ | w
        · exact absurd (hp.trans hc.symm) h
        · exact Or.inr (mem_keys_of_dict_get hc)
      · exact Or.inl (mem_keys_of_dict_get hp)
    · exact fun h => h.2
  · intro hcp hex
    have hd := diff_labels_ne_nil hex
    cases hc : get_rule_func config.rule curr.sections config <;>
      rw [hc] at hcp <;>
        simp [detect, hc, ← hcp, List.isEmpty_iff, hd]
  · intro hcp hall
    have hd := diff_labels_eq_nil hall
    cases hc : get_rule_func config.rule curr.sections config <;>
      rw [hc] at hcp <;>
        simp [detect, hc, ← hcp, List.isEmpty_iff, hd]

/-- Witness for C2 at concrete inputs. -/
theorem detect_diff_witness :
    (("Dis 1A" ∈ ev_status.diff) ↔
      ((("Dis 1A" ∈ snap_lod.sections.map Prod.fst) ∨
        ("Dis 1A" ∈ snap_open.sections.map Prod.fst)) ∧
        dict_get snap_lod.sections "Dis 1A" ≠ dict_get snap_open.sections "Dis 1A")) ∧
    detect (some snap_lod) snap_open cfg_any none ts₁ =
      [{ type := .STATUS_CHANGED, timestamp := ts₁, prev_snapshot := some snap_lod,
         curr_snapshot := snap_open, diff := diff_labels snap_lod snap_open, url := none }] ∧
    detect (some snap_open) snap_open cfg_any none ts₁ = [] := by
  refine ⟨?_, ?_, ?_⟩
  · exact (detect_diff snap_lod snap_open cfg_any none ts₁).1 _ (by decide) "Dis 1A"
  · exact (detect_diff snap_lod snap_open cfg_any none ts₁).2.1 (by decide)
      ⟨"Dis 1A", by decide⟩
  · exact (detect_diff snap_open snap_open cfg_any none ts₁).2.2 (by decide) (fun l => rfl)

/-- C9: for a fixed pair of snapshots, configuration and url, any two
invocations of `detect` produce the same number of events and, eventwise, the
same type, diff, referenced snapshots and url — the timestamp argument (the
only wall-clock input) is the sole possible difference. -/
theorem detect_deterministic (prev : Option Snapshot) (curr : Snapshot)
    (config : Config) (url : Option String) (t₁ t₂ : PyDateTime) :
    (detect prev curr config url t₁).length = (detect prev curr config url t₂).length ∧
    List.Forall₂ (fun e₁ e₂ : Event => e₁.type = e₂.type ∧ e₁.diff = e₂.diff ∧
        e₁.prev_snapshot = e₂.prev_snapshot ∧ e₁.curr_snapshot = e₂.curr_snapshot ∧
        e₁.url = e₂.url)
      (detect prev curr config url t₁) (detect prev curr config url t₂) := by
  cases prev with
  | none => exact ⟨rfl, List.Forall₂.nil⟩
  | some p =>
    simp only [detect]
    split <;> [skip; split] <;> [skip; skip; split] <;>
      exact ⟨rfl, by simp⟩

/-- C4: the lecture_and_discussion predicate is true iff some label whose
lower-cased form starts with "lec" maps to OPEN and some label whose
lower-cased form starts with "dis" maps to OPEN; it is false whenever no
lecture label or no discussion label is present; and the transition from
{Lec 1: OPEN, Dis 1A: CLOSED} to both OPEN yields BECAME_AVAILABLE under this
rule but STATUS_CHANGED under any_open. -/
theorem rule_lecture_and_discussion_spec :
    (∀ (sections : List (String × String)) (config : Config),
      (sections.map Prod.fst).Nodup →
      (is_available_lecture_and_discussion sections config = true ↔
        ((∃ k, py_startswith (py_lower k) "lec" = true ∧ dict_get sections k = some "OPEN") ∧
         (∃ k, py_startswith (py_lower k) "dis" = true ∧ dict_get sections k = some "OPEN")))) ∧
    (∀ (sections : List (String × String)) (config : Config),
      (∀ k ∈ sections.map Prod.fst, py_startswith (py_lower k) "lec" = false) →
      is_available_lecture_and_discussion sections config = false) ∧
    (∀ (sections : List (String × String)) (config : Config),
      (∀ k ∈ sections.map Prod.fst, py_startswith (py_lower k) "dis" = false) →
      is_available_lecture_and_discussion sections config = false) ∧
    (detect (some snap_lod) snap_open cfg_lecdis none ts₁).map Event.type =
      [.BECAME_AVAILABLE] ∧
    (detect (some snap_lod) snap_open cfg_any none ts₁).map Event.type =
      [.STATUS_CHANGED] := by
  refine ⟨?_, ?_, ?_, by decide, by decide⟩
  · intro sections config hn
    simp only [is_available_lecture_and_discussion, Bool.and_eq_true, List.any_eq_true]
    constructor
    · rintro ⟨⟨kv₁, hm₁, hp₁⟩, ⟨kv₂, hm₂, hp₂⟩⟩
      simp only [decide_eq_true_eq] at hp₁ hp₂
      exact ⟨⟨kv₁.1, hp₁.1, hp₁.2 ▸ dict_get_of_mem_nodup hn hm₁⟩,
             ⟨kv₂.1, hp₂.1, hp₂.2 ▸ dict_get_of_mem_nodup hn hm₂⟩⟩
    · rintro ⟨⟨k₁, hs₁, hg₁⟩, ⟨k₂, hs₂, hg₂⟩⟩
      exact ⟨⟨(k₁, "OPEN"), dict_get_mem hg₁, by simp [hs₁]⟩,
             ⟨(k₂, "OPEN"), dict_get_mem hg₂, by simp [hs₂]⟩⟩
  · intro sections config h
    simp only [is_available_lecture_and_discussion, Bool.and_eq_false_iff]
    left
    rw [List.any_eq_false]
    intro kv hm
    simp [h kv.1 (List.mem_map.mpr ⟨kv, hm, rfl⟩)]
  · intro sections config h
    simp only [is_available_lecture_and_discussion, Bool.and_eq_false_iff]
    right
    rw [List.any_eq_false]
    intro kv hm
    simp [h kv.1 (List.mem_map.mpr ⟨kv, hm, rfl⟩)]

/-- Witness for C4 at concrete inputs. -/
theorem rule_lecture_and_discussion_witness :
    (is_available_lecture_and_discussion snap_open.sections cfg_lecdis = true ↔
      ((∃ k, py_startswith (py_lower k) "lec" = true ∧
          dict_get snap_open.sections k = some "OPEN") ∧
       (∃ k, py_startswith (py_lower k) "dis" = true ∧
          dict_get snap_open.sections k = some "OPEN"))) ∧
    is_available_lecture_and_discussion [("Dis 1A", "OPEN")] cfg_lecdis = false ∧
    is_available_lecture_and_discussion [("Lec 1", "OPEN")] cfg_lecdis = false := by
  refine ⟨?_, ?_, ?_⟩
  · exact rule_lecture_and_discussion_spec.1 snap_open.sections cfg_lecdis (by decide)
  · exact rule_lecture_and_discussion_spec.2.1 [("Dis 1A", "OPEN")] cfg_lecdis
      (by decide)
  · exact rule_lecture_and_discussion_spec.2.2.1 [("Lec 1", "OPEN")] cfg_lecdis
      (by decide)

/-- C5: specific_sections with no watched list configured returns the any_open
verdict; with a configured list it is true iff every watched label maps to
OPEN, an absent watched label yielding false; and an unrecognized rule name
resolves to the any_open predicate instead of erroring. -/
theorem rule_specific_sections_spec :
    (∀ (sections : List (String × String)) (config : Config),
      list_falsy config.watched_sections = true →
      is_available_specific_sections sections config = is_available_any_open sections config) ∧
    (∀ (sections : List (String × String)) (config : Config) (ws : List String),
      config.watched_sections = some ws → ws ≠ [] →
      (is_available_specific_sections sections config = true ↔
        ∀ s ∈ ws, dict_get sections s = some "OPEN")) ∧
    (∀ (sections : List (String × String)) (config : Config) (ws : List String) (s : String),
      config.watched_sections = some ws → s ∈ ws → dict_get sections s = none →
      is_available_specific_sections sections config = false) ∧
    (∀ (rule : String), rule ≠ "any_open" → rule ≠ "lecture_and_discussion" →
      rule ≠ "specific_sections" → get_rule_func rule = is_available_any_open) := by
  refine ⟨?_, ?_, ?_, ?_⟩
  · intro sections config h
    simp [is_available_specific_sections, h]
  · intro sections config ws hws hne
    have hf : list_falsy (some ws) = false := by
      cases ws with
      | nil => exact absurd rfl hne
      | cons a as => rfl
    simp only [is_available_specific_sections, hws, hf, Bool.false_eq_true, if_false,
      Option.getD_some, List.all_eq_true, decide_eq_true_eq]
    constructor
    · intro h s hs
      have h2 := h s hs
      rcases hg : dict_get sections s with _ | v
      · rw [hg] at h2
        exact absurd h2 (by decide)
      · rw [hg] at h2
        simp only [Option.getD_some] at h2
        rw [h2]
    · intro h s hs
      rw [h s hs]
      rfl
  · intro sections config ws s hws hs hg
    have hne : ws ≠ [] := by
      intro he
      rw [he] at hs
      exact (List.not_mem_nil s) hs
    have hf : list_falsy (some ws) = false := by
      cases ws with
      | nil => exact absurd rfl hne
      | cons a as => rfl
    simp only [is_available_specific_sections, hws, hf, Bool.false_eq_true, if_false,
      Option.getD_some]
    rw [List.all_eq_false]
    exact ⟨s, hs, by simp [hg]⟩
  · intro rule h1 h2 h3
    simp [get_rule_func, h1, h2, h3]

/-- Witness for C5 at concrete inputs. -/
theorem rule_specific_sections_witness :
    is_available_specific_sections snap_open.sections ⟨"u", none, "specific_sections"⟩ =
      is_available_any_open snap_open.sections ⟨"u", none, "specific_sections"⟩ ∧
    (is_available_specific_sections snap_open.sections
        ⟨"u", some ["Lec 1", "Dis 1A"], "specific_sections"⟩ = true ↔
      ∀ s ∈ ["Lec 1", "Dis 1A"], dict_get snap_open.sections s = some "OPEN") ∧
    is_available_specific_sections snap_open.sections
        ⟨"u", some ["Sem 9"], "specific_sections"⟩ = false ∧
    get_rule_func "totally_unknown_rule" = is_available_any_open := by
  refine ⟨?_, ?_, ?_, ?_⟩
  · exact rule_specific_sections_spec.1 snap_open.sections _ (by decide)
  · exact rule_specific_sections_spec.2.1 snap_open.sections _ ["Lec 1", "Dis 1A"]
      rfl (by decide)
  · exact rule_specific_sections_spec.2.2.1 snap_open.sections _ ["Sem 9"] "Sem 9"
      rfl (by decide) (by decide)
  · exact rule_specific_sections_spec.2.2.2 "totally_unknown_rule"
      (by decide) (by decide) (by decide)

lemma lookup_mem {l : List (String × Status)} {k : String} {v : Status}
    (h : l.lookup k = some v) : (k, v) ∈ l := by
  induction l with
  | nil => cases h
  | cons kv rest ih =>
    rw [List.lookup_cons] at h
    split at h
    · injection h with h2
      subst h2
      have he : k = kv.1 := by
        have := ‹(k == kv.1) = true›
        exact eq_of_beq this
      subst he
      simp
    · exact List.mem_cons_of_mem _ (ih h)

/-- C3 counterexample: normalizing the already-canonical token "OPEN" yields
OPEN, not UNKNOWN — `_normalize` lower-cases its input before the exact-match
lookup, and "open" is a defined raw phrase. -/
theorem normalize_open_counterexample :
    normalize "OPEN" = Status.OPEN ∧ Status.OPEN ≠ Status.UNKNOWN := by decide

/-- C3 amended: normalize lower-cases and trims its input and then performs
exact-match lookup in the fixed phrase table; an input maps to a canonical
status exactly when its lower-cased trimmed form is a defined raw phrase — so
the canonical token "OPEN" maps to OPEN rather than UNKNOWN — and any
non-matching input (such as "UNKNOWN") resolves to UNKNOWN without raising. -/
theorem normalize_spec :
    normalize "OPEN" = Status.OPEN ∧
    (∀ s : String, normalize s = (status_map_get (py_lower (py_strip s))).getD .UNKNOWN) ∧
    (∀ (s : String) (st : Status), normalize s = st → st ≠ .UNKNOWN →
      (py_lower (py_strip s), st) ∈ STATUS_MAP) ∧
    (∀ s : String, status_map_get (py_lower (py_strip s)) = none →
      normalize s = .UNKNOWN) ∧
    normalize "UNKNOWN" = Status.UNKNOWN := by
  refine ⟨by decide, fun s => rfl, ?_, ?_, by decide⟩
  · intro s st h hne
    rcases hl : status_map_get (py_lower (py_strip s)) with _ | v
    · simp only [normalize, hl, Option.getD_none] at h
      exact absurd h.symm hne
    · simp only [normalize, hl, Option.getD_some] at h
      exact h ▸ lookup_mem hl
  · intro s h
    simp [normalize, h]

/-- Witness for the amended C3 at concrete inputs. -/
theorem normalize_spec_witness :
    (py_lower (py_strip "Waitlisted "), Status.WAITLISTED) ∈ STATUS_MAP ∧
    normalize "no such phrase" = Status.UNKNOWN := by
  constructor
  · exact normalize_spec.2.2.1 "Waitlisted " Status.WAITLISTED (by decide) (by decide)
  · exact normalize_spec.2.2.2.1 "no such phrase" (by decide)

lemma is_pref_take {p l : List Char} (h : is_pref p l = true) : l.take p.length = p := by
  induction p generalizing l with
  | nil => rfl
  | cons a as ih =>
    cases l with
    | nil => simp [is_pref] at h
    | cons b bs =>
      simp only [is_pref, Bool.and_eq_true, decide_eq_true_eq] at h
      simp [List.take, h.1.symm, ih h.2]

lemma str_find_idx_is_pref {needle hay : List Char} {i : Nat}
    (h : str_find_idx needle hay = some i) : is_pref needle (hay.drop i) = true := by
  induction hay generalizing i with
  | nil =>
    simp only [str_find_idx] at h
    split at h
    · cases h
      simpa using ‹is_pref needle [] = true›
    · cases h
  | cons c t ih =>
    simp only [str_find_idx] at h
    split at h
    · cases h
      simpa using ‹is_pref needle (c :: t) = true›
    · rcases Option.map_eq_some'.mp h with ⟨j, hj, rfl⟩
      simpa using ih hj

lemma str_find_idx_none {needle hay : List Char}
    (h : str_find_idx needle hay = none) : ∀ i, is_pref needle (hay.drop i) = false := by
  induction hay with
  | nil =>
    intro i
    simp only [str_find_idx] at h
    split at h
    · cases h
    · simpa [List.drop_nil] using Bool.eq_false_iff.mpr ‹¬is_pref needle [] = true›
  | cons c t ih =>
    intro i
    simp only [str_find_idx] at h
    split at h
    · cases h
    · rcases i with _ | j
      · simpa using Bool.eq_false_iff.mpr ‹¬is_pref needle (c :: t) = true›
      · exact ih (Option.map_eq_none'.mp h) j

lemma find_phrase_unknown (ps : List String) (text tl : List Char)
    (h : ∀ p ∈ ps, str_find_idx p.data tl = none) :
    find_phrase ps text tl = "UNKNOWN" := by
  induction ps with
  | nil => rfl
  | cons p rest ih =>
    simp only [find_phrase, h p (List.mem_cons_self p rest)]
    exact ih (fun q hq => h q (List.mem_cons_of_mem p hq))

lemma find_phrase_mem (ps : List String) (text : List Char) :
    find_phrase ps text (text.map Char.toLower) = "UNKNOWN" ∨
    (find_phrase ps text (text.map Char.toLower)).data.map Char.toLower ∈
      ps.map String.data := by
  induction ps with
  | nil => exact Or.inl rfl
  | cons p rest ih =>
    simp only [find_phrase]
    rcases hf : str_find_idx p.data (text.map Char.toLower) with _ | idx
    · rcases ih with h | h
      · exact Or.inl h
      · exact Or.inr (List.mem_cons_of_mem _ h)
    · have hp := is_pref_take (str_find_idx_is_pref hf)
      right
      simp only [List.map_cons, List.mem_cons]
      left
      calc ((⟨(text.drop idx).take p.data.length⟩ : String).data.map Char.toLower)
          = ((text.map Char.toLower).drop idx).take p.data.length := by
            rw [← List.map_drop, ← List.map_take]
        _ = p.data := hp

/-- C6: text-based status resolution strips the trailing capacity
parenthetical, then searches the priority-ordered phrase list
case-insensitively, returning the first phrase found in its original casing,
or the literal "UNKNOWN" when no phrase occurs; in particular
"Closed by Dept Computer Science (0 capacity remaining)" resolves to
"Closed by Dept", which normalizes to CLOSED. -/
theorem extract_status_from_text_spec :
    py_strip ⟨capacity_sub "Closed by Dept Computer Science (0 capacity remaining)".data⟩ =
      "Closed by Dept Computer Science" ∧
    extract_status_from_text "Closed by Dept Computer Science (0 capacity remaining)" =
      "Closed by Dept" ∧
    normalize "Closed by Dept" = Status.CLOSED ∧
    (∀ text : String, extract_status_from_text text = "UNKNOWN" ∨
      (extract_status_from_text text).data.map Char.toLower ∈
        STATUS_PHRASES.map String.data) ∧
    (∀ text : String,
      (∀ p ∈ STATUS_PHRASES,
        str_find_idx p.data
          ((py_strip ⟨capacity_sub text.data⟩).data.map Char.toLower) = none) →
      extract_status_from_text text = "UNKNOWN") := by
  refine ⟨by decide, by decide, by decide, ?_, ?_⟩
  · intro text
    exact find_phrase_mem STATUS_PHRASES (py_strip ⟨capacity_sub text.data⟩).data
  · intro text h
    exact find_phrase_unknown STATUS_PHRASES _ _ h

/-- Witness for C6 at a concrete input. -/
theorem extract_status_from_text_witness :
    extract_status_from_text "no status phrase here" = "UNKNOWN" := by
  exact (extract_status_from_text_spec).2.2.2.2 "no status phrase here" (by decide)

lemma extract_ucla_row_label {row : SocRow} {l : String} {s : Option String}
    (h : extract_ucla_row row = (some l, s)) : section_label_match l = true := by
  unfold extract_ucla_row at h
  split at h
  · split at h
    · split at h
      · injection h with h1 h2
        injection h1 with h1
        subst h1
        assumption
      · cases h
    · cases h
  · cases h

lemma extract_legacy_row_label {cells : List String} {l : String} {s : Option String}
    (h : extract_legacy_row cells = (some l, s)) : section_label_match l = true := by
  unfold extract_legacy_row at h
  split at h
  · cases h
  · dsimp only at h
    split at h
    · injection h with h1 h2
      injection h1 with h1
      subst h1
      assumption
    · cases h

lemma dict_set_keys {d : List (String × String)} {k v l : String}
    (h : l ∈ (dict_set d k v).map Prod.fst) : l ∈ d.map Prod.fst ∨ l = k := by
  induction d with
  | nil =>
    simp only [dict_set, List.map_cons, List.map_nil, List.mem_singleton] at h
    exact Or.inr h
  | cons kv rest ih =>
    simp only [dict_set] at h
    split at h
    · simp only [List.map_cons, List.mem_cons] at h
      rcases h with h | h
      · exact Or.inl (by simp [h])
      · exact Or.inl (by simp [h])
    · simp only [List.map_cons, List.mem_cons] at h
      rcases h with h | h
      · exact Or.inl (by simp [h])
      · rcases ih h with h2 | h2
        · exact Or.inl (List.mem_cons_of_mem _ h2)
        · exact Or.inr h2

lemma process_row_keys {acc : List (String × String) × List (String × String)}
    {row : SocRow} {l : String}
    (h : l ∈ (process_row acc row).1.map Prod.fst) :
    l ∈ acc.1.map Prod.fst ∨ section_label_match l = true := by
  unfold process_row at h
  dsimp only at h
  split at h
  case isTrue hc =>
    rcases hu : extract_ucla_row row with ⟨l₀, s₀⟩
    rw [hu] at h hc
    rw [Bool.and_eq_true] at hc
    dsimp only at h hc
    rcases l₀ with _ | l₂
    · exact absurd hc.1 (by decide)
    · dsimp only [Option.getD_some] at h
      rcases dict_set_keys h with h2 | h2
      · exact Or.inl h2
      · exact Or.inr (h2 ▸ extract_ucla_row_label hu)
  case isFalse =>
    split at h
    case isTrue hc2 =>
      rcases hl : extract_legacy_row row.cells with ⟨l₀, s₀⟩
      rw [hl] at h hc2
      rw [Bool.and_eq_true] at hc2
      dsimp only at h hc2
      rcases l₀ with _ | l₂
      · exact absurd hc2.1 (by decide)
      · dsimp only [Option.getD_some] at h
        rcases dict_set_keys h with h2 | h2
        · exact Or.inl h2
        · exact Or.inr (h2 ▸ extract_legacy_row_label hl)
    case isFalse => exact Or.inl h

lemma process_rows_keys_aux (rows : List SocRow)
    (acc : List (String × String) × List (String × String))
    (hacc : ∀ l ∈ acc.1.map Prod.fst, section_label_match l = true) :
    ∀ l ∈ (rows.foldl process_row acc).1.map Prod.fst, section_label_match l = true := by
  induction rows generalizing acc with
  | nil => exact hacc
  | cons row rest ih =>
    refine ih (process_row acc row) ?_
    intro l hl
    rcases process_row_keys hl with h | h
    · exact hacc l h
    · exact h

lemma process_rows_keys {rows : List SocRow} {l : String}
    (h : l ∈ (process_rows rows).1.map Prod.fst) : section_label_match l = true :=
  process_rows_keys_aux rows ([], []) (by intro l hl; cases hl) l h

/-- C7: a legacy table row with at least two cells yields the first cell as
label and the last cell as status, unless the last cell is purely numeric and
a third cell exists, in which case the second-to-last cell is used; any row
whose resolved label fails the section-label pattern is discarded, in either
layout, so a "Quiz 1" row never reaches the snapshot's sections. -/
theorem legacy_row_spec :
    (∀ cells : List String, 2 ≤ cells.length →
      section_label_match (cells.getD 0 "") = true →
      (py_isdigit ((cells.getLast?).getD "") = false ∨ cells.length < 3) →
      extract_legacy_row cells =
        (some (cells.getD 0 ""), some ((cells.getLast?).getD ""))) ∧
    (∀ cells : List String, 3 ≤ cells.length →
      section_label_match (cells.getD 0 "") = true →
      py_isdigit ((cells.getLast?).getD "") = true →
      extract_legacy_row cells =
        (some (cells.getD 0 ""), some (cells.getD (cells.length - 2) ""))) ∧
    (∀ cells : List String, section_label_match (cells.getD 0 "") = false →
      extract_legacy_row cells = (none, none)) ∧
    section_label_match "Quiz 1" = false ∧
    (∀ rows : List SocRow, ∀ l ∈ (process_rows rows).1.map Prod.fst,
      section_label_match l = true) ∧
    (∀ (rows : List SocRow) (now : PyDateTime),
      "Quiz 1" ∉ (parse_rows now rows).sections.map Prod.fst) := by
  refine ⟨?_, ?_, ?_, by decide, ?_, ?_⟩
  · intro cells h2 hm hd
    have hlen : ¬ cells.length < 2 := by omega
    have hcond : (py_isdigit ((cells.getLast?).getD "") &&
        decide (3 ≤ cells.length)) = false := by
      rcases hd with hd | hd
      · simp [hd]
      · have h3 : ¬ 3 ≤ cells.length := by omega
        simp [h3]
    simp only [extract_legacy_row, if_neg hlen]
    simp only [hcond, Bool.false_eq_true, if_false]
    rw [if_pos hm]
  · intro cells h3 hm hd
    have hlen : ¬ cells.length < 2 := by omega
    have hcond : (py_isdigit ((cells.getLast?).getD "") &&
        decide (3 ≤ cells.length)) = true := by
      simp [hd, h3]
    simp only [extract_legacy_row, if_neg hlen]
    simp only [hcond, if_true]
    rw [if_pos hm]
  · intro cells hm
    by_cases hlen : cells.length < 2
    · simp only [extract_legacy_row, if_pos hlen]
    · simp only [extract_legacy_row, if_neg hlen]
      split
      next hcontra =>
        rw [hm] at hcontra
        cases hcontra
      next => rfl
  · exact fun rows l hl => process_rows_keys hl
  · intro rows now hq
    exact absurd (process_rows_keys hq) (by decide)

/-- Witness for C7 at concrete inputs. -/
theorem legacy_row_witness :
    extract_legacy_row ["Lec 1", "Open"] = (some "Lec 1", some "Open") ∧
    extract_legacy_row ["Dis 1A", "Closed", "30"] = (some "Dis 1A", some "Closed") ∧
    extract_legacy_row ["Quiz 1", "Open"] = (none, none) ∧
    section_label_match "Lec 1" = true ∧
    "Quiz 1" ∉ (parse_rows ts₀ [⟨none, none, ["Quiz 1", "Open"]⟩,
      ⟨none, none, ["Lec 1", "Open"]⟩]).sections.map Prod.fst := by
  refine ⟨?_, ?_, ?_, by decide, ?_⟩
  · exact legacy_row_spec.1 ["Lec 1", "Open"] (by decide) (by decide) (by decide)
  · exact legacy_row_spec.2.1 ["Dis 1A", "Closed", "30"] (by decide) (by decide) (by decide)
  · exact legacy_row_spec.2.2.1 ["Quiz 1", "Open"] (by decide)
  · exact legacy_row_spec.2.2.2.2.2 [⟨none, none, ["Quiz 1", "Open"]⟩,
      ⟨none, none, ["Lec 1", "Open"]⟩] ts₀

lemma section_label_match_ne_empty {l : String} (h : section_label_match l = true) :
    l ≠ "" := by
  intro he
  subst he
  exact absurd h (by decide)

/-- C10: a primary-layout row with a pattern-matching label whose status
column contains no paragraph element is not dropped — extraction returns the
label with raw status text the literal "UNKNOWN", and the parsed snapshot
records that label with canonical status UNKNOWN. -/
theorem ucla_row_no_status_p :
    (∀ (row : SocRow) (section_col : SectionCol) (status_col : StatusCol) (l : String),
      row.section_col = some section_col → row.status_col = some status_col →
      ucla_label section_col = some l → section_label_match l = true →
      status_col.p_text = none →
      extract_ucla_row row = (some l, some "UNKNOWN")) ∧
    (∀ (row : SocRow) (section_col : SectionCol) (status_col : StatusCol) (l : String)
        (now : PyDateTime),
      row.section_col = some section_col → row.status_col = some status_col →
      ucla_label section_col = some l → section_label_match l = true →
      status_col.p_text = none →
      (parse_rows now [row]).sections = [(l, "UNKNOWN")]) ∧
    normalize "UNKNOWN" = Status.UNKNOWN := by
  have hmain : ∀ (row : SocRow) (section_col : SectionCol) (status_col : StatusCol)
      (l : String),
      row.section_col = some section_col → row.status_col = some status_col →
      ucla_label section_col = some l → section_label_match l = true →
      status_col.p_text = none →
      extract_ucla_row row = (some l, some "UNKNOWN") := by
    intro row section_col status_col l hsc hst hl hm hp
    simp only [extract_ucla_row, hsc, hst, hl, hm, if_true, ucla_status, hp]
  refine ⟨hmain, ?_, by decide⟩
  intro row section_col status_col l now hsc hst hl hm hp
  have hex := hmain row section_col status_col l hsc hst hl hm hp
  have hne : l ≠ "" := section_label_match_ne_empty hm
  have htr : truthy (some l) = true := by simp [truthy, hne]
  show (process_rows [row]).1 = [(l, "UNKNOWN")]
  unfold process_rows
  simp only [List.foldl, process_row, hex]
  simp [htr, show truthy (some "UNKNOWN") = true from by decide,
    show (normalize "UNKNOWN").value = "UNKNOWN" from by decide, dict_set]

/-- Witness for C10 at a concrete row. -/
theorem ucla_row_no_status_p_witness :
    extract_ucla_row row_no_p = (some "Lec 1", some "UNKNOWN") ∧
    (parse_rows ts₀ [row_no_p]).sections = [("Lec 1", "UNKNOWN")] := by
  constructor
  · exact ucla_row_no_status_p.1 row_no_p ⟨some ⟨some ⟨"Lec 1", none⟩, "Lec 1", ""⟩⟩
      ⟨none, "<div></div>"⟩ "Lec 1" rfl rfl (by decide) (by decide) rfl
  · exact ucla_row_no_status_p.2.1 row_no_p ⟨some ⟨some ⟨"Lec 1", none⟩, "Lec 1", ""⟩⟩
      ⟨none, "<div></div>"⟩ "Lec 1" ts₀ rfl rfl (by decide) (by decide) rfl

lemma digit_char_spec : ∀ q : Nat, q < 10 →
    (Nat.digitChar q).isDigit = true ∧ (Nat.digitChar q).toNat - 48 = q := by decide

lemma parse_fixed_pad (w : Nat) : ∀ (a n : Nat) (rest : List Char), n < 10 ^ w →
    parse_fixed w a (pad w n ++ rest) = some (a * 10 ^ w + n, rest) := by
  induction w with
  | zero =>
    intro a n rest h
    have hn : n = 0 := by omega
    subst hn
    simp [pad, parse_fixed]
  | succ w ih =>
    intro a n rest h
    have hq : n / 10 ^ w < 10 := by
      have hpos : 0 < 10 ^ w := Nat.pos_pow_of_pos w (by omega)
      have h10 : 10 ^ (w + 1) = 10 ^ w * 10 := pow_succ 10 w
      exact Nat.div_lt_of_lt_mul (by omega)
    have hd := digit_char_spec (n / 10 ^ w) hq
    have hpos : 0 < 10 ^ w := Nat.pos_pow_of_pos w (by omega)
    simp only [pad, List.cons_append, parse_fixed, hd.1, if_true, hd.2]
    rw [ih (a * 10 + n / 10 ^ w) (n % 10 ^ w) rest (Nat.mod_lt n hpos)]
    have harith : (a * 10 + n / 10 ^ w) * 10 ^ w + n % 10 ^ w
        = a * 10 ^ (w + 1) + n := by
      have h2 : (a * 10 + n / 10 ^ w) * 10 ^ w + n % 10 ^ w
          = a * (10 ^ w * 10) + (n / 10 ^ w * 10 ^ w + n % 10 ^ w) := by ring
      rw [h2, Nat.div_add_mod', pow_succ]
    rw [harith]

lemma expect_char_cons (c : Char) (rest : List Char) :
    expect_char c (c :: rest) = some rest := by
  simp [expect_char]

lemma parse_hm_chars (a : Nat) (h : a < 6000) :
    parse_hm (pad 2 (a / 60) ++ [':'] ++ pad 2 (a % 60)) = some a := by
  have h1 : a / 60 < 10 ^ 2 := by omega
  have h2 : a % 60 < 10 ^ 2 := by omega
  unfold parse_hm
  rw [List.append_assoc, List.singleton_append, parse_fixed_pad 2 0 (a / 60) _ h1]
  dsimp only
  rw [expect_char_cons]
  dsimp only
  rw [show (pad 2 (a % 60) : List Char) = pad 2 (a % 60) ++ [] from (List.append_nil _).symm,
    parse_fixed_pad 2 0 (a % 60) [] h2]
  dsimp only
  rw [if_pos rfl]
  congr 1
  simp only [Nat.zero_mul, Nat.zero_add]
  omega

lemma parse_offset_chars : ∀ off : Option Int, off_bound off →
    parse_offset (offset_chars off) = some off := by
  intro off hb
  rcases off with _ | o
  · rfl
  · have hb2 : o.natAbs < 6000 := hb
    by_cases hneg : o < 0
    · simp only [offset_chars, if_pos hneg, parse_offset]
      rw [if_pos trivial]
      rw [parse_hm_chars o.natAbs hb2]
      simp only [Option.map_some']
      have he : -Int.ofNat (o.natAbs) = o := by
        simp only [Int.ofNat_eq_natCast]
        omega
      rw [he]
      rw [if_neg (by decide)]
    · simp only [offset_chars, if_neg hneg, parse_offset]
      rw [if_pos trivial]
      rw [parse_hm_chars o.natAbs hb2]
      simp only [Option.map_some']
      have he : Int.ofNat (o.natAbs) = o := by
        simp only [Int.ofNat_eq_natCast]
        omega
      rw [he]

lemma parse_micro_offset_chars (us : Nat) (off : Option Int)
    (hus : us < 10 ^ 6) (hoff : off_bound off) :
    parse_micro_offset (micro_chars us ++ offset_chars off) = some (us, off) := by
  by_cases h0 : us = 0
  · subst h0
    have hm0 : micro_chars 0 = [] := rfl
    rw [hm0, List.nil_append]
    rcases hoc : offset_chars off with _ | ⟨c, t⟩
    · rcases off with _ | o
      · rfl
      · exfalso
        simp [offset_chars] at hoc
    · have hc : ¬ c = '.' := by
        rcases off with _ | o
        · simp [offset_chars] at hoc
        · simp only [offset_chars] at hoc
          injection hoc with hc1 _
          subst hc1
          by_cases ho : o < 0
          · rw [if_pos ho]
            decide
          · rw [if_neg ho]
            decide
      simp only [parse_micro_offset, if_neg hc]
      rw [← hoc, parse_offset_chars off hoff]
      rfl
  · simp only [micro_chars, if_neg h0, List.cons_append]
    simp only [parse_micro_offset, if_pos rfl]
    rw [parse_fixed_pad 6 0 us _ hus]
    simp only [Nat.zero_mul, Nat.zero_add]
    rw [parse_offset_chars off hoff]
    rfl

lemma fromisoformat_isoformat (d : PyDateTime) (h : iso_valid d = true) :
    fromisoformat (isoformat d) = some d := by
  obtain ⟨y, mo, dy, hh, mi, se, us, off⟩ := d
  simp only [iso_valid, Bool.and_eq_true, decide_eq_true_eq] at h
  obtain ⟨⟨⟨⟨⟨⟨⟨hy, hmo⟩, hdy⟩, hhh⟩, hmi⟩, hse⟩, hus⟩, hoffb⟩ := h
  have hoff : off_bound off := by
    rcases off with _ | o
    · trivial
    · simpa using hoffb
  unfold fromisoformat isoformat isoformat_chars
  simp only [List.append_assoc, List.singleton_append, List.cons_append, List.nil_append]
  rw [parse_fixed_pad 4 0 y _ hy]
  simp only [Option.some_bind, Nat.zero_mul, Nat.zero_add]
  rw [expect_char_cons]
  simp only [Option.some_bind]
  rw [parse_fixed_pad 2 0 mo _ hmo]
  simp only [Option.some_bind, Nat.zero_mul, Nat.zero_add]
  rw [expect_char_cons]
  simp only [Option.some_bind]
  rw [parse_fixed_pad 2 0 dy _ hdy]
  simp only [Option.some_bind, Nat.zero_mul, Nat.zero_add]
  rw [expect_char_cons]
  simp only [Option.some_bind]
  rw [parse_fixed_pad 2 0 hh _ hhh]
  simp only [Option.some_bind, Nat.zero_mul, Nat.zero_add]
  rw [expect_char_cons]
  simp only [Option.some_bind]
  rw [parse_fixed_pad 2 0 mi _ hmi]
  simp only [Option.some_bind, Nat.zero_mul, Nat.zero_add]
  rw [expect_char_cons]
  simp only [Option.some_bind]
  rw [show (pad 2 se ++ (micro_chars us ++ offset_chars off) : List Char)
      = pad 2 se ++ (micro_chars us ++ offset_chars off) from rfl,
    parse_fixed_pad 2 0 se _ hse]
  simp only [Option.some_bind, Nat.zero_mul, Nat.zero_add]
  rw [parse_micro_offset_chars us off hus hoff]
  simp only [Option.map_some']

/-- C8: serializing a Snapshot with to_dict and deserializing with from_dict
reproduces an equal timestamp (via the ISO-8601 round-trip) and an equal
sections mapping; the serialized dictionary always carries the timestamp and
sections keys, and carries the raw and meta keys exactly when those fields
are non-null — an absent key models the omitted dictionary entry. -/
theorem snapshot_roundtrip :
    (∀ s : Snapshot, iso_valid s.timestamp = true →
      Snapshot.from_dict (Snapshot.to_dict s) = some s) ∧
    (∀ s : Snapshot, (Snapshot.to_dict s).timestamp = isoformat s.timestamp ∧
      (Snapshot.to_dict s).sections = s.sections ∧
      ((Snapshot.to_dict s).raw = none ↔ s.raw = none) ∧
      ((Snapshot.to_dict s).meta = none ↔ s.meta = none) ∧
      (Snapshot.to_dict s).raw = s.raw ∧ (Snapshot.to_dict s).meta = s.meta) ∧
    (∀ s : Snapshot, iso_valid s.timestamp = true →
      fromisoformat (isoformat s.timestamp) = some s.timestamp) := by
  refine ⟨?_, ?_, fun s h => fromisoformat_isoformat s.timestamp h⟩
  · intro s h
    obtain ⟨ts, sections, raw, meta⟩ := s
    simp only [Snapshot.to_dict, Snapshot.from_dict]
    rw [fromisoformat_isoformat ts h]
    rfl
  · intro s
    exact ⟨rfl, rfl, Iff.rfl, Iff.rfl, rfl, rfl⟩

/-- Witness for C8 at a concrete snapshot. -/
theorem snapshot_roundtrip_witness :
    Snapshot.from_dict (Snapshot.to_dict snap_rt) = some snap_rt ∧
    ((Snapshot.to_dict snap_rt).raw = none ↔ snap_rt.raw = none) ∧
    ((Snapshot.to_dict snap_closed).meta = none ↔ snap_closed.meta = none) ∧
    fromisoformat (isoformat snap_rt.timestamp) = some snap_rt.timestamp := by
  refine ⟨?_, ?_, ?_, ?_⟩
  · exact snapshot_roundtrip.1 snap_rt (by decide)
  · exact (snapshot_roundtrip.2.1 snap_rt).2.2.1
  · exact (snapshot_roundtrip.2.1 snap_closed).2.2.2.1
  · exact snapshot_roundtrip.2.2 snap_rt (by decide)

end ClassSOC
